import Mathlib

/-!
Shallow embedding of the NLU engine orchestration core
(`src/modules/nlu/src/backend/engine.ts`) and proofs about it.

Numbers that the TypeScript source handles as IEEE floats (confidences,
thresholds) are modelled as rationals; the one square root appearing in the
source (`Math.sqrt` inside the standard-error computation of
`findMostConfidentPredictionMeanStd`) is carried out in square-free form by
the helper `geMulSqrt`, which is proved equivalent to the real-valued
`Real.sqrt` comparison.
-/

namespace NluEngine

/-- A ranked intent prediction, as produced by the intent classifier:
`{ name, confidence }`. -/
structure Prediction where
  name : String
  confidence : ℚ
  deriving DecidableEq, Repr

/-- The sentinel prediction returned when nothing qualifies
(`NonePrediction` in the source). -/
def NonePrediction : Prediction :=
  { confidence := 1, name := "none" }

/-- Decides `s * sqrt q ≤ d` over the rationals without leaving ℚ
(intended for `0 ≤ q`).  For `0 ≤ s` the right-hand side is nonnegative, so
the comparison is equivalent to `0 ≤ d ∧ s^2 * q ≤ d^2`; for `s < 0` it is
equivalent to `0 ≤ d ∨ d^2 ≤ s^2 * q`.  `geMulSqrt_eq_true_iff` below proves
this agrees with the `Real.sqrt` comparison the source performs on floats. -/
def geMulSqrt (d s q : ℚ) : Bool :=
  if 0 ≤ s then decide (0 ≤ d) && decide (s ^ 2 * q ≤ d ^ 2)
  else decide (0 ≤ d) || decide (d ^ 2 ≤ s ^ 2 * q)

/-- The arithmetic mean of the confidences
(`_.meanBy(intents, 'confidence')`). -/
def meanConfidence (intents : List Prediction) : ℚ :=
  (intents.map Prediction.confidence).sum / (intents.length : ℚ)

/-- The sum of squared deviations of the confidences from `mean`
(`intents.reduce((a, c) => a + Math.pow(c.confidence - mean, 2), 0)`). -/
def sumSqDev (intents : List Prediction) (mean : ℚ) : ℚ :=
  (intents.map fun x => (x.confidence - mean) ^ 2).sum

/-- `findMostConfidentPredictionMeanStd(intents, fixedThreshold, std = 3)`:
if the list is empty return `NonePrediction`; else return the first
prediction whose confidence reaches `fixedThreshold`; else compute the mean
and the standard error of the confidences and return the first prediction
with `confidence ≥ stdErr * std + mean`, or `NonePrediction` if none
qualifies.  The source computes
`stdErr = Math.sqrt (Σ (c - mean)^2 / n) / Math.sqrt n`, i.e.
`sqrt (ssd / n^2)`; the comparison with `stdErr * std + mean` is decided by
`geMulSqrt` in square-free form (`findMostConfident_outlier_fallback` below
relates this to the `Real.sqrt` formula).  The source's default `std = 3` is
supplied explicitly at the call site in `_extract`. -/
def findMostConfidentPredictionMeanStd
    (intents : List Prediction) (fixedThreshold : ℚ) (std : ℚ) : Prediction :=
  if intents.length = 0 then NonePrediction
  else
    match intents.find? (fun x => decide (fixedThreshold ≤ x.confidence)) with
    | some best => best
    | none =>
      let mean : ℚ := meanConfidence intents
      let ssd : ℚ := sumSqDev intents mean
      match intents.find?
          (fun x =>
            geMulSqrt (x.confidence - mean) std
              (ssd / (intents.length : ℚ) ^ 2)) with
      | some dominant => dominant
      | none => NonePrediction

example :
    findMostConfidentPredictionMeanStd
      [{ name := "greet", confidence := 9/10 }, { name := "bye", confidence := 4/10 }]
      (7/10) 3 = { name := "greet", confidence := 9/10 } := by
  norm_num [findMostConfidentPredictionMeanStd, List.find?]

example :
    findMostConfidentPredictionMeanStd
      [{ name := "a", confidence := 3/10 }, { name := "b", confidence := 35/100 },
       { name := "c", confidence := 32/100 }] (99/100) 3 = NonePrediction := by
  norm_num [findMostConfidentPredictionMeanStd, List.find?, geMulSqrt,
    meanConfidence, sumSqDev]

example :
    findMostConfidentPredictionMeanStd [{ name := "a", confidence := 1/2 }] (7/10) 3
      = { name := "a", confidence := 1/2 } := by
  norm_num [findMostConfidentPredictionMeanStd, List.find?, geMulSqrt,
    meanConfidence, sumSqDev]

/-! ### Prediction pipeline (`_extract`, `extract`) -/

/-- A slot definition inside an intent definition, identified by its name. -/
abbrev SlotDef := String

/-- An intent definition as read from storage: name, training utterances and
slot definitions. -/
structure IntentDef where
  name : String
  utterances : List String
  slots : List SlotDef
  deriving DecidableEq, Repr

/-- The kind tag of a custom entity definition (`ent.type` in the source). -/
inductive EntityDefKind
  | pattern
  | list
  deriving DecidableEq, Repr

/-- A custom entity definition stored per tenant. -/
structure EntityDef where
  name : String
  type : EntityDefKind
  deriving DecidableEq, Repr

/-- An extracted entity (opaque to the orchestration layer). -/
structure Entity where
  name : String
  value : String
  deriving DecidableEq, Repr

/-- An extracted slot (opaque to the orchestration layer). -/
structure Slot where
  name : String
  value : String
  deriving DecidableEq, Repr

/-- The incoming event; the pipeline only reads its `preview` text. -/
structure Event where
  preview : String
  deriving DecidableEq, Repr

/-- The selected intent as stored in the result: the chosen prediction spread
together with `matches: createIntentMatcher(intent.name)`.  The matcher is a
closure over the chosen name; it is modelled by the name it captures
(`matchesName`). -/
structure MatchedIntent where
  name : String
  confidence : ℚ
  matchesName : String
  deriving DecidableEq, Repr

/-- `sdk.IO.EventUnderstanding` as assembled by `_extract`: every field other
than `errored` is only present when the step that assigns it completed. -/
structure EventUnderstanding where
  language : Option String
  intents : Option (List Prediction)
  intent : Option MatchedIntent
  entities : Option (List Entity)
  slots : Option (List Slot)
  errored : Bool
  deriving DecidableEq, Repr

/-- The external collaborators consumed by one prediction-pipeline run.
Backend and storage calls that can throw are modelled as `Except`; the
pattern/list extractors are pure functions in the source and are modelled as
total. -/
structure PipelineEnv where
  identify : String → Except String String
  predictIntents : String → Except String (List Prediction)
  getCustomEntities : Except String (List EntityDef)
  extractPatternEntities : String → List EntityDef → List Entity
  extractListEntities : String → List EntityDef → List Entity
  extractSystem : String → String → Except String (List Entity)
  getIntent : String → Except String IntentDef
  extractSlots : String → IntentDef → List Entity → Except String (List Slot)

/-- `_extractEntities(text, lang)`: read the custom entity definitions, run
the pattern and list extractors over the definitions of matching kind, run
the system extractor, and concatenate system entities first, then pattern,
then list. -/
def _extractEntities (B : PipelineEnv) (text lang : String) :
    Except String (List Entity) :=
  match B.getCustomEntities with
  | Except.error e => Except.error e
  | Except.ok customEntityDefs =>
    let patternEntities :=
      B.extractPatternEntities text
        (customEntityDefs.filter fun ent => ent.type = EntityDefKind.pattern)
    let listEntities :=
      B.extractListEntities text
        (customEntityDefs.filter fun ent => ent.type = EntityDefKind.list)
    match B.extractSystem text lang with
    | Except.error e => Except.error e
    | Except.ok systemEntities =>
      Except.ok (systemEntities ++ patternEntities ++ listEntities)

/-- `_extract`: starts from a result holding only `errored := true`, runs the
steps in order, assigning one result field after each successful step; any
throw is caught at the boundary and the `finally` block returns whatever
`ret` holds at that point, so the function always returns a result and never
raises. -/
def _extract (B : PipelineEnv) (confidenceTreshold : ℚ) (incomingEvent : Event) :
    EventUnderstanding :=
  let ret : EventUnderstanding :=
    { language := none, intents := none, intent := none, entities := none,
      slots := none, errored := true }
  let text := incomingEvent.preview
  match B.identify text with
  | Except.error _ => ret
  | Except.ok language =>
    let ret := { ret with language := some language }
    match B.predictIntents text with
    | Except.error _ => ret
    | Except.ok intents =>
      let ret := { ret with intents := some intents }
      let intent := findMostConfidentPredictionMeanStd intents confidenceTreshold 3
      let ret := { ret with
        intent := some
          { name := intent.name, confidence := intent.confidence,
            matchesName := intent.name } }
      match _extractEntities B text language with
      | Except.error _ => ret
      | Except.ok entities =>
        let ret := { ret with entities := some entities }
        match B.getIntent intent.name with
        | Except.error _ => ret
        | Except.ok intentDef =>
          match B.extractSlots text intentDef entities with
          | Except.error _ => ret
          | Except.ok slots =>
            { ret with slots := some slots, errored := false }

/-- The retry policy object of the engine (`bluebird-retry` options). -/
structure RetryPolicy where
  interval : ℕ
  max_interval : ℕ
  timeout : ℕ
  max_tries : ℕ
  deriving DecidableEq, Repr

/-- The engine's fixed retry policy. -/
def retryPolicy : RetryPolicy :=
  { interval := 100, max_interval := 500, timeout := 5000, max_tries := 3 }

/-- `bluebird-retry` on the value level: run the operation; on a raised
failure re-invoke it, up to `n` further attempts, surfacing the last failure
once attempts exhaust.  Inter-attempt delays do not affect the value
computed and are not modelled. -/
def retry {α : Type} (op : Unit → Except String α) : ℕ → Except String α
  | 0 => op ()
  | Nat.succ n =>
    match op () with
    | Except.ok a => Except.ok a
    | Except.error _ => retry op n

/-- `extract`: the public operation, `retry(() => this._extract(event),
retryPolicy)`.  `_extract` returns normally on every path, so its lift into
the fallible world is `Except.ok ∘ _extract`.  `max_tries` counts total
attempts, hence `max_tries - 1` further attempts after the first. -/
def extract (B : PipelineEnv) (confidenceTreshold : ℚ) (incomingEvent : Event) :
    Except String EventUnderstanding :=
  retry (fun _ => Except.ok (_extract B confidenceTreshold incomingEvent))
    (retryPolicy.max_tries - 1)

/-! ### Sync controller (`checkSyncNeeded`, `sync`, `init`) -/

/-- One slot-tagger training sequence.  Modelled from the spec:
`generateTrainingSequence` (pipelines/slots/pre-processor, not under src/)
expands one utterance into a tagged training sequence annotated with the
owning intent's slot schema and name. -/
structure TrainingSequence where
  utterance : String
  slots : List SlotDef
  intentName : String
  deriving DecidableEq, Repr

/-- `generateTrainingSequence(utterance, slots, name)`.  Modelled from the
spec (the implementation lives outside src/): one sequence per utterance,
annotated with that intent's slot schema and name. -/
def generateTrainingSequence (utterance : String) (slots : List SlotDef)
    (intentName : String) : TrainingSequence :=
  { utterance := utterance, slots := slots, intentName := intentName }

/-- The mutable state of the engine's classifiers.  Modelled from the spec:
`FastTextClassifier` (pipelines/intents/ft_classifier, not under src/)
exposes `currentModelId`; `loadModel(bytes, fingerprint)` makes `bytes` the
active model and tags `currentModelId` with the fingerprint, and
`train(intents, fingerprint)` leaves the freshly trained model active under
`currentModelId = fingerprint` and returns the artifact path.  The slot
extractor's trained state is the training set last given to
`slotExtractor.train`. -/
structure EngineState where
  currentModelId : Option String
  activeModel : Option (List ℕ)
  slotModel : Option (List TrainingSequence)
  deriving DecidableEq, Repr

/-- The freshly constructed engine: no model loaded
(`currentModelId` undefined). -/
def initialEngineState : EngineState :=
  { currentModelId := none, activeModel := none, slotModel := none }

/-- The external collaborators consumed by `sync`: per-tenant storage, the
crypto/JSON pair behind `_getIntentsHash`, the trainable backends, the file
system and the clock. -/
structure SyncEnv where
  getIntents : List IntentDef
  jsonStringify : List IntentDef → String
  md5hex : String → String
  modelExists : String → Bool
  getModelAsBuffer : String → List ℕ
  trainIntents : List IntentDef → String → Except String String
  readFile : String → List ℕ
  now : ℕ
  slotTrain : List TrainingSequence → Except String Unit

/-- The observable backend calls a `sync` run performs. -/
inductive SyncAction
  | train
  | persist (name : String)
  | load (modelHash : String)
  | slotTrain
  deriving DecidableEq, Repr

/-- `_getIntentsHash(intents)`:
`crypto.createHash('md5').update(JSON.stringify(intents)).digest('hex')`. -/
def _getIntentsHash (env : SyncEnv) (intents : List IntentDef) : String :=
  env.md5hex (env.jsonStringify intents)

/-- `_loadModel(modelHash)`: fetch the persisted buffer and
`intentClassifier.loadModel(buffer, modelHash)` (the classifier behavior is
modelled from the spec: the buffer becomes the active model, tagged with the
fingerprint). -/
def _loadModel (env : SyncEnv) (st : EngineState) (modelHash : String) :
    EngineState × List SyncAction :=
  let modelBuffer := env.getModelAsBuffer modelHash
  ({ st with currentModelId := some modelHash, activeModel := some modelBuffer },
   [SyncAction.load modelHash])

/-- `_trainModel(intents, modelHash)`: train the intent classifier, read the
artifact back, and persist it as `Date.now() ++ "__" ++ modelHash ++ ".bin"`.
A failure is caught and logged; the classifier keeps its prior state.  On
success the classifier holds the trained model under
`currentModelId = modelHash` (modelled from the spec, see `EngineState`). -/
def _trainModel (env : SyncEnv) (st : EngineState) (intents : List IntentDef)
    (modelHash : String) : EngineState × List SyncAction :=
  match env.trainIntents intents modelHash with
  | Except.error _ => (st, [SyncAction.train])
  | Except.ok intentModelPath =>
    let intentModelBuffer := env.readFile intentModelPath
    let intentModelName := toString env.now ++ "__" ++ modelHash ++ ".bin"
    ({ st with currentModelId := some modelHash,
               activeModel := some intentModelBuffer },
     [SyncAction.train, SyncAction.persist intentModelName])

/-- `sync()`: recompute the fingerprint; load the persisted model if it
exists, else train and persist a new one; then (best effort) rebuild the
slot tagger's training set from every intent's utterances and retrain it,
logging but swallowing a failure of that last step. -/
def sync (env : SyncEnv) (st : EngineState) : EngineState × List SyncAction :=
  let intents := env.getIntents
  let modelHash := _getIntentsHash env intents
  let step1 :=
    if env.modelExists modelHash then _loadModel env st modelHash
    else _trainModel env st intents modelHash
  let trainingSet :=
    intents.flatMap fun intent =>
      intent.utterances.map fun utterance =>
        generateTrainingSequence utterance intent.slots intent.name
  match env.slotTrain trainingSet with
  | Except.ok _ =>
    ({ step1.1 with slotModel := some trainingSet },
     step1.2 ++ [SyncAction.slotTrain])
  | Except.error _ => (step1.1, step1.2)

/-- `checkSyncNeeded()`: true when at least one intent exists and the
classifier's `currentModelId` is not the current fingerprint (`undefined`
compares different from every hash). -/
def checkSyncNeeded (env : SyncEnv) (st : EngineState) : Bool :=
  let intents := env.getIntents
  if intents.length ≠ 0 then
    decide (st.currentModelId ≠ some (_getIntentsHash env intents))
  else false

/-- The observable outcome of `init`. -/
structure InitResult where
  confidenceTreshold : ℚ
  state : EngineState
  trace : List SyncAction
  deriving Repr

/-- `init()`: take the configured confidence threshold, falling back to 0.7
when it is `NaN` or outside `[0, 1]` (an absent or `NaN` config value is
modelled as `none`, on which every `isNaN`-style comparison fails); then run
`sync` if `checkSyncNeeded`. -/
def init (configTreshold : Option ℚ) (env : SyncEnv) (st : EngineState) :
    InitResult :=
  let confidenceTreshold : ℚ :=
    match configTreshold with
    | none => 7/10
    | some v => if v < 0 ∨ 1 < v then 7/10 else v
  if checkSyncNeeded env st then
    let stepped := sync env st
    { confidenceTreshold := confidenceTreshold, state := stepped.1,
      trace := stepped.2 }
  else
    { confidenceTreshold := confidenceTreshold, state := st, trace := [] }

/-! ### Theorems -/

/-- C5: for the empty predictions list and any threshold and any
stdDevMultiplier, the Confidence Selector returns the sentinel prediction
with name "none" and confidence 1.0. -/
theorem findMostConfident_empty (fixedThreshold std : ℚ) :
    findMostConfidentPredictionMeanStd [] fixedThreshold std = NonePrediction ∧
      NonePrediction.name = "none" ∧ NonePrediction.confidence = 1 :=
  ⟨rfl, rfl, rfl⟩

/-- C6: `checkSyncNeeded` returns true if and only if the stored intent set
is non-empty and the classifier's currently loaded model identifier differs
from the fingerprint of the current intents; in particular with zero intents
it returns false regardless of the classifier's state. -/
theorem checkSyncNeeded_iff (env : SyncEnv) (st : EngineState) :
    checkSyncNeeded env st = true ↔
      env.getIntents ≠ [] ∧
        st.currentModelId ≠ some (_getIntentsHash env env.getIntents) := by
  unfold checkSyncNeeded
  rcases h : env.getIntents with _ | ⟨i, rest⟩ <;> simp [h]

/-- C8: after `init`, the confidence threshold lies in `[0, 1]`; an absent or
`NaN` configured value (modelled `none`) and any out-of-range value fall
back to the default `0.7`, and any in-range value is kept. -/
theorem init_threshold_clamped (configTreshold : Option ℚ) (env : SyncEnv)
    (st : EngineState) :
    (0 ≤ (init configTreshold env st).confidenceTreshold ∧
        (init configTreshold env st).confidenceTreshold ≤ 1) ∧
      (init none env st).confidenceTreshold = 7/10 ∧
      ∀ v : ℚ, (init (some v) env st).confidenceTreshold =
        if v < 0 ∨ 1 < v then 7/10 else v := by
  have hval : ∀ c : Option ℚ, (init c env st).confidenceTreshold =
      match c with
      | none => 7/10
      | some v => if v < 0 ∨ 1 < v then 7/10 else v := by
    intro c
    unfold init
    by_cases h : checkSyncNeeded env st = true <;> simp [h]
  refine ⟨?_, hval none, fun v => hval (some v)⟩
  rw [hval configTreshold]
  rcases configTreshold with _ | v
  · norm_num
  · simp only []
    split
    · norm_num
    · rename_i h
      push_neg at h
      exact ⟨h.1, h.2⟩

/-- C10: the retry-wrapped public operation `extract` is observationally
equal to a single invocation of `_extract`: since `_extract` always returns
normally, the retry policy never re-attempts and never surfaces a failure,
at the engine's configured try budget and at every other budget alike. -/
theorem extract_eq_single_attempt (B : PipelineEnv) (confidenceTreshold : ℚ)
    (incomingEvent : Event) :
    extract B confidenceTreshold incomingEvent =
        Except.ok (_extract B confidenceTreshold incomingEvent) ∧
      ∀ n : ℕ,
        retry (fun _ => Except.ok (_extract B confidenceTreshold incomingEvent)) n =
          Except.ok (_extract B confidenceTreshold incomingEvent) := by
  constructor
  · rfl
  · intro n
    cases n <;> rfl

/-- C7: when a persisted model exists under the current fingerprint, `sync`
loads that model into the intent classifier, tagging the active model id
with the fingerprint, and the training backend is never invoked. -/
theorem sync_loads_when_model_exists (env : SyncEnv) (st : EngineState)
    (h : env.modelExists (_getIntentsHash env env.getIntents) = true) :
    (sync env st).1.currentModelId =
        some (_getIntentsHash env env.getIntents) ∧
      (sync env st).1.activeModel =
        some (env.getModelAsBuffer (_getIntentsHash env env.getIntents)) ∧
      SyncAction.load (_getIntentsHash env env.getIntents) ∈ (sync env st).2 ∧
      SyncAction.train ∉ (sync env st).2 := by
  unfold sync _loadModel
  simp only [h, if_true]
  split <;> simp

/-- C1: when no persisted model exists under the current fingerprint and
training succeeds, `sync` invokes the training backend, persists the
artifact under `creation-timestamp ++ "__" ++ fingerprint ++ ".bin"` right
after, and ends with the trained model active in the classifier under the
fingerprint. -/
theorem sync_trains_when_no_model (env : SyncEnv) (st : EngineState)
    (intentModelPath : String)
    (hmissing : env.modelExists (_getIntentsHash env env.getIntents) = false)
    (htrain : env.trainIntents env.getIntents
        (_getIntentsHash env env.getIntents) = Except.ok intentModelPath) :
    ((sync env st).2).take 2 =
        [SyncAction.train,
          SyncAction.persist
            (toString env.now ++ "__" ++ _getIntentsHash env env.getIntents
              ++ ".bin")] ∧
      (sync env st).1.currentModelId =
        some (_getIntentsHash env env.getIntents) ∧
      (sync env st).1.activeModel = some (env.readFile intentModelPath) := by
  unfold sync _trainModel
  simp only [hmissing, htrain, Bool.false_eq_true, if_false]
  split <;> simp

/-- A storage/backend environment in which a model is already persisted
under the current fingerprint; used to witness the load path. -/
def envModelPersisted : SyncEnv :=
  { getIntents := [{ name := "book", utterances := ["hi"], slots := [] }],
    jsonStringify := fun _ => "serialized",
    md5hex := fun _ => "f0f0",
    modelExists := fun _ => true,
    getModelAsBuffer := fun _ => [1, 2, 3],
    trainIntents := fun _ _ => Except.error "training backend unavailable",
    readFile := fun _ => [],
    now := 42,
    slotTrain := fun _ => Except.ok () }

/-- Witness for C7 at `envModelPersisted`. -/
theorem sync_loads_when_model_exists_witness :
    (sync envModelPersisted initialEngineState).1.currentModelId =
        some (_getIntentsHash envModelPersisted envModelPersisted.getIntents) ∧
      (sync envModelPersisted initialEngineState).1.activeModel =
        some (envModelPersisted.getModelAsBuffer
          (_getIntentsHash envModelPersisted envModelPersisted.getIntents)) ∧
      SyncAction.load (_getIntentsHash envModelPersisted envModelPersisted.getIntents)
        ∈ (sync envModelPersisted initialEngineState).2 ∧
      SyncAction.train ∉ (sync envModelPersisted initialEngineState).2 :=
  sync_loads_when_model_exists envModelPersisted initialEngineState rfl

/-- A storage/backend environment with no persisted model and a training
backend that succeeds; used to witness the train path. -/
def envModelMissing : SyncEnv :=
  { getIntents := [{ name := "book", utterances := ["hi"], slots := [] }],
    jsonStringify := fun _ => "serialized",
    md5hex := fun _ => "f0f0",
    modelExists := fun _ => false,
    getModelAsBuffer := fun _ => [],
    trainIntents := fun _ _ => Except.ok "artifact-path",
    readFile := fun _ => [9, 9],
    now := 42,
    slotTrain := fun _ => Except.ok () }

/-- Witness for C1 at `envModelMissing`. -/
theorem sync_trains_when_no_model_witness :
    ((sync envModelMissing initialEngineState).2).take 2 =
        [SyncAction.train,
          SyncAction.persist
            (toString envModelMissing.now ++ "__"
              ++ _getIntentsHash envModelMissing envModelMissing.getIntents
              ++ ".bin")] ∧
      (sync envModelMissing initialEngineState).1.currentModelId =
        some (_getIntentsHash envModelMissing envModelMissing.getIntents) ∧
      (sync envModelMissing initialEngineState).1.activeModel =
        some (envModelMissing.readFile "artifact-path") :=
  sync_trains_when_no_model envModelMissing initialEngineState "artifact-path"
    rfl rfl

/-- C3: whenever some prediction reaches the threshold, the Confidence
Selector returns the first such prediction in input order, regardless of the
other entries' values (it does not re-sort). -/
theorem findMostConfident_first_above_threshold (l : List Prediction)
    (fixedThreshold std : ℚ)
    (h : ∃ p ∈ l, fixedThreshold ≤ p.confidence) :
    ∃ i, ∃ hi : i < l.length,
      findMostConfidentPredictionMeanStd l fixedThreshold std = l.get ⟨i, hi⟩ ∧
        fixedThreshold ≤ (l.get ⟨i, hi⟩).confidence ∧
        ∀ j (hj : j < i),
          (l.get ⟨j, Nat.lt_trans hj hi⟩).confidence < fixedThreshold := by
  obtain ⟨p, hp, hpc⟩ := h
  have hlen : ¬(l.length = 0) := by
    intro h0
    rw [List.length_eq_zero] at h0
    subst h0
    exact absurd hp (List.not_mem_nil p)
  have hsome : (l.find? fun x => decide (fixedThreshold ≤ x.confidence)).isSome := by
    rw [List.find?_isSome]
    exact ⟨p, hp, by simpa using hpc⟩
  obtain ⟨b, hfind⟩ := Option.isSome_iff_exists.mp hsome
  have hb := hfind
  rw [List.find?_eq_some_iff_getElem] at hb
  obtain ⟨hpb, i, hi, hgeti, hearlier⟩ := hb
  refine ⟨i, hi, ?_, ?_, ?_⟩
  · simp only [findMostConfidentPredictionMeanStd, hlen, if_false, hfind,
      List.get_eq_getElem]
    exact hgeti.symm
  · rw [List.get_eq_getElem, hgeti]
    exact of_decide_eq_true hpb
  · intro j hj
    have hj' := hearlier j hj
    rw [Bool.not_eq_true', decide_eq_false_iff_not, not_le] at hj'
    rw [List.get_eq_getElem]
    exact hj'

/-- Witness for C3 at the spec's scenario: predictions
greet 0.9, bye 0.4 with threshold 0.7 select greet at position 0. -/
theorem findMostConfident_first_above_threshold_witness :
    ∃ i, ∃ hi : i <
        ([{ name := "greet", confidence := 9/10 },
          { name := "bye", confidence := 4/10 }] : List Prediction).length,
      findMostConfidentPredictionMeanStd
          [{ name := "greet", confidence := 9/10 },
            { name := "bye", confidence := 4/10 }] (7/10) 3 =
          ([{ name := "greet", confidence := 9/10 },
            { name := "bye", confidence := 4/10 }] : List Prediction).get ⟨i, hi⟩ ∧
        (7/10 : ℚ) ≤ (([{ name := "greet", confidence := 9/10 },
            { name := "bye", confidence := 4/10 }] : List Prediction).get
              ⟨i, hi⟩).confidence ∧
        ∀ j (hj : j < i),
          (([{ name := "greet", confidence := 9/10 },
            { name := "bye", confidence := 4/10 }] : List Prediction).get
              ⟨j, Nat.lt_trans hj hi⟩).confidence < 7/10 :=
  findMostConfident_first_above_threshold _ (7/10) 3
    ⟨{ name := "greet", confidence := 9/10 }, by simp, by norm_num⟩

/-- C9: on a non-empty list whose confidences are all equal and strictly
below the threshold, the selector returns the first prediction (the standard
error is 0 and the first confidence equals the mean, so it passes the
outlier cutoff) rather than the sentinel. -/
theorem findMostConfident_constant_below_threshold (l : List Prediction)
    (fixedThreshold std c : ℚ) (hne : l ≠ [])
    (hconst : ∀ p ∈ l, p.confidence = c) (hbelow : c < fixedThreshold) :
    findMostConfidentPredictionMeanStd l fixedThreshold std = l.head hne := by
  obtain ⟨hd, tl, rfl⟩ := List.exists_cons_of_ne_nil hne
  have hlen : ¬((hd :: tl).length = 0) := by simp
  have hfind1 :
      (hd :: tl).find? (fun x => decide (fixedThreshold ≤ x.confidence)) = none := by
    rw [List.find?_eq_none]
    intro x hx
    simp only [decide_eq_true_eq, not_le]
    rw [hconst x hx]
    exact hbelow
  have hconfhd : hd.confidence = c := hconst hd (List.mem_cons_self hd tl)
  have hn : (((hd :: tl).length : ℚ)) ≠ 0 := by
    simp only [List.length_cons]
    exact_mod_cast Nat.succ_ne_zero tl.length
  have hmean : meanConfidence (hd :: tl) = c := by
    unfold meanConfidence
    have hall : ∀ x ∈ (hd :: tl).map Prediction.confidence, x = c := by
      intro x hx
      obtain ⟨q, hq, rfl⟩ := List.mem_map.mp hx
      exact hconst q hq
    rw [List.sum_eq_card_nsmul _ c hall, List.length_map, nsmul_eq_mul,
      mul_div_cancel_left₀ c hn]
  have hssd : sumSqDev (hd :: tl) c = 0 := by
    unfold sumSqDev
    apply List.sum_eq_zero
    intro x hx
    obtain ⟨q, hq, rfl⟩ := List.mem_map.mp hx
    rw [hconst q hq, sub_self]
    norm_num
  have hg : geMulSqrt 0 std 0 = true := by
    unfold geMulSqrt
    by_cases hs : 0 ≤ std <;> simp [hs]
  simp only [findMostConfidentPredictionMeanStd, hlen, if_false, hfind1]
  rw [List.find?_cons_of_pos, List.head_cons]
  rw [hmean, hssd, hconfhd, sub_self, zero_div]
  exact hg

/-- Witness for C9 at a singleton below the threshold. -/
theorem findMostConfident_constant_below_threshold_witness :
    findMostConfidentPredictionMeanStd
        [{ name := "a", confidence := 1/2 }] (7/10) 3 =
      ([{ name := "a", confidence := 1/2 }] : List Prediction).head (by simp) :=
  findMostConfident_constant_below_threshold _ (7/10) 3 (1/2) (by simp)
    (by
      intro p hp
      rw [List.mem_singleton] at hp
      subst hp
      rfl)
    (by norm_num)

/-- C2: the prediction pipeline never raises past its boundary: `_extract`
always returns a result object whose fields are exactly those assigned by
the steps that completed before the first failure; `errored` is `false`
exactly when every step succeeded (equivalently, when the final
slot-extraction step assigned `slots`). -/
theorem extract_boundary_partial_result (B : PipelineEnv)
    (confidenceTreshold : ℚ) (ev : Event) :
    (_extract B confidenceTreshold ev).language
        = (B.identify ev.preview).toOption ∧
      (_extract B confidenceTreshold ev).intents
        = ((B.identify ev.preview).toOption.bind fun _ =>
            (B.predictIntents ev.preview).toOption) ∧
      (_extract B confidenceTreshold ev).intent
        = ((B.identify ev.preview).toOption.bind fun _ =>
            (B.predictIntents ev.preview).toOption.map fun intents =>
              { name :=
                  (findMostConfidentPredictionMeanStd intents
                    confidenceTreshold 3).name,
                confidence :=
                  (findMostConfidentPredictionMeanStd intents
                    confidenceTreshold 3).confidence,
                matchesName :=
                  (findMostConfidentPredictionMeanStd intents
                    confidenceTreshold 3).name }) ∧
      (_extract B confidenceTreshold ev).entities
        = ((B.identify ev.preview).toOption.bind fun language =>
            (B.predictIntents ev.preview).toOption.bind fun _ =>
              (_extractEntities B ev.preview language).toOption) ∧
      (_extract B confidenceTreshold ev).slots
        = ((B.identify ev.preview).toOption.bind fun language =>
            (B.predictIntents ev.preview).toOption.bind fun intents =>
              (_extractEntities B ev.preview language).toOption.bind
                fun entities =>
                  (B.getIntent (findMostConfidentPredictionMeanStd intents
                      confidenceTreshold 3).name).toOption.bind fun intentDef =>
                    (B.extractSlots ev.preview intentDef entities).toOption) ∧
      ((_extract B confidenceTreshold ev).errored = false ↔
        ((_extract B confidenceTreshold ev).slots).isSome) := by
  cases h1 : B.identify ev.preview with
  | error e1 => simp [_extract, h1, Except.toOption]
  | ok language =>
    cases h2 : B.predictIntents ev.preview with
    | error e2 => simp [_extract, h1, h2, Except.toOption]
    | ok intents =>
      cases h3 : _extractEntities B ev.preview language with
      | error e3 => simp [_extract, h1, h2, h3, Except.toOption]
      | ok entities =>
        cases h4 : B.getIntent
            (findMostConfidentPredictionMeanStd intents
              confidenceTreshold 3).name with
        | error e4 => simp [_extract, h1, h2, h3, h4, Except.toOption]
        | ok intentDef =>
          cases h5 : B.extractSlots ev.preview intentDef entities with
          | error e5 => simp [_extract, h1, h2, h3, h4, h5, Except.toOption]
          | ok slots => simp [_extract, h1, h2, h3, h4, h5, Except.toOption]

/-- For a nonnegative multiplier, the square-free test `geMulSqrt` agrees
with the real-valued comparison `s * sqrt q ≤ d` performed by the source. -/
theorem geMulSqrt_eq_true_iff (d s q : ℚ) (hs : 0 ≤ s) :
    geMulSqrt d s q = true ↔ (s : ℝ) * Real.sqrt (q : ℝ) ≤ (d : ℝ) := by
  have hcast : (s : ℝ) * Real.sqrt (q : ℝ) = Real.sqrt ((s : ℝ) ^ 2 * (q : ℝ)) := by
    rw [Real.sqrt_mul (sq_nonneg _), Real.sqrt_sq (by exact_mod_cast hs)]
  rw [hcast, Real.sqrt_le_iff]
  unfold geMulSqrt
  rw [if_pos hs]
  simp only [Bool.and_eq_true, decide_eq_true_eq]
  constructor
  · rintro ⟨h1, h2⟩
    exact ⟨by exact_mod_cast h1, by exact_mod_cast h2⟩
  · rintro ⟨h1, h2⟩
    exact ⟨by exact_mod_cast h1, by exact_mod_cast h2⟩

/-- C4: on a non-empty list in which no confidence reaches the threshold,
the selector computes the mean of the confidences and the standard error
`sqrt (Σ (c - mean)^2 / n) / sqrt n`, and returns the first prediction with
confidence at least `mean + std * stderr`, or the "none" sentinel if no
prediction qualifies. -/
theorem findMostConfident_outlier_fallback (l : List Prediction)
    (fixedThreshold std : ℚ) (hs : 0 ≤ std) (hne : l ≠ [])
    (hall : ∀ p ∈ l, p.confidence < fixedThreshold) :
    ∃ mean stderr : ℝ,
      mean = ((meanConfidence l : ℚ) : ℝ) ∧
        stderr =
          Real.sqrt (((sumSqDev l (meanConfidence l) : ℚ) : ℝ) / (l.length : ℝ))
            / Real.sqrt (l.length : ℝ) ∧
        ((findMostConfidentPredictionMeanStd l fixedThreshold std
              = NonePrediction ∧
            ∀ p ∈ l, (p.confidence : ℝ) < mean + (std : ℝ) * stderr) ∨
          ∃ i, ∃ hi : i < l.length,
            findMostConfidentPredictionMeanStd l fixedThreshold std
                = l.get ⟨i, hi⟩ ∧
              mean + (std : ℝ) * stderr ≤ ((l.get ⟨i, hi⟩).confidence : ℝ) ∧
              ∀ j (hj : j < i),
                ((l.get ⟨j, Nat.lt_trans hj hi⟩).confidence : ℝ)
                  < mean + (std : ℝ) * stderr) := by
  have hlen : ¬(l.length = 0) := fun h0 => hne (List.length_eq_zero.mp h0)
  have hssd0 : (0 : ℚ) ≤ sumSqDev l (meanConfidence l) := by
    unfold sumSqDev
    apply List.sum_nonneg
    intro x hx
    obtain ⟨p, hp, rfl⟩ := List.mem_map.mp hx
    positivity
  have hfind1 :
      l.find? (fun x => decide (fixedThreshold ≤ x.confidence)) = none := by
    rw [List.find?_eq_none]
    intro x hx
    simp only [decide_eq_true_eq, not_le]
    exact hall x hx
  have hstderr :
      Real.sqrt (((sumSqDev l (meanConfidence l) : ℚ) : ℝ) / (l.length : ℝ))
          / Real.sqrt (l.length : ℝ)
        = Real.sqrt
            (((sumSqDev l (meanConfidence l) / (l.length : ℚ) ^ 2 : ℚ) : ℝ)) := by
    rw [← Real.sqrt_div
      (div_nonneg (by exact_mod_cast hssd0) (Nat.cast_nonneg l.length))
      (l.length : ℝ)]
    congr 1
    push_cast
    ring
  have hkey : ∀ p : Prediction,
      geMulSqrt (p.confidence - meanConfidence l) std
          (sumSqDev l (meanConfidence l) / (l.length : ℚ) ^ 2) = true ↔
        ((meanConfidence l : ℚ) : ℝ) +
            (std : ℝ) *
              (Real.sqrt
                  (((sumSqDev l (meanConfidence l) : ℚ) : ℝ) / (l.length : ℝ))
                / Real.sqrt (l.length : ℝ))
          ≤ (p.confidence : ℝ) := by
    intro p
    rw [hstderr, geMulSqrt_eq_true_iff _ _ _ hs]
    push_cast
    constructor <;> intro h <;> linarith
  refine ⟨((meanConfidence l : ℚ) : ℝ), _, rfl, rfl, ?_⟩
  rcases hfind2 : l.find?
      (fun x => geMulSqrt (x.confidence - meanConfidence l) std
        (sumSqDev l (meanConfidence l) / (l.length : ℚ) ^ 2)) with _ | b
  · refine Or.inl ⟨?_, ?_⟩
    · simp only [findMostConfidentPredictionMeanStd, hlen, if_false, hfind1,
        hfind2]
    · rw [List.find?_eq_none] at hfind2
      intro p hp
      have hnp := hfind2 p hp
      exact not_le.mp fun hle => hnp ((hkey p).mpr hle)
  · have hb := hfind2
    rw [List.find?_eq_some_iff_getElem] at hb
    obtain ⟨hpb, i, hi, hgeti, hearlier⟩ := hb
    refine Or.inr ⟨i, hi, ?_, ?_, ?_⟩
    · simp only [findMostConfidentPredictionMeanStd, hlen, if_false, hfind1,
        hfind2, List.get_eq_getElem]
      exact hgeti.symm
    · rw [List.get_eq_getElem, hgeti]
      exact (hkey b).mp hpb
    · intro j hj
      have hfj := hearlier j hj
      rw [Bool.not_eq_true'] at hfj
      rw [List.get_eq_getElem]
      by_contra hcon
      push_neg at hcon
      have htrue := (hkey _).mpr hcon
      rw [hfj] at htrue
      exact Bool.false_ne_true htrue

/-- The spec's outlier scenario: three predictions all far below a 0.99
threshold and within noise of each other. -/
def lowTrio : List Prediction :=
  [{ name := "a", confidence := 3/10 }, { name := "b", confidence := 35/100 },
   { name := "c", confidence := 32/100 }]

/-- Witness for C4 at `lowTrio` with threshold 0.99 and multiplier 3. -/
theorem findMostConfident_outlier_fallback_witness :
    ∃ mean stderr : ℝ,
      mean = ((meanConfidence lowTrio : ℚ) : ℝ) ∧
        stderr =
          Real.sqrt
              (((sumSqDev lowTrio (meanConfidence lowTrio) : ℚ) : ℝ)
                / (lowTrio.length : ℝ))
            / Real.sqrt (lowTrio.length : ℝ) ∧
        ((findMostConfidentPredictionMeanStd lowTrio (99/100) 3
              = NonePrediction ∧
            ∀ p ∈ lowTrio,
              (p.confidence : ℝ) < mean + ((3 : ℚ) : ℝ) * stderr) ∨
          ∃ i, ∃ hi : i < lowTrio.length,
            findMostConfidentPredictionMeanStd lowTrio (99/100) 3
                = lowTrio.get ⟨i, hi⟩ ∧
              mean + ((3 : ℚ) : ℝ) * stderr
                ≤ ((lowTrio.get ⟨i, hi⟩).confidence : ℝ) ∧
              ∀ j (hj : j < i),
                ((lowTrio.get ⟨j, Nat.lt_trans hj hi⟩).confidence : ℝ)
                  < mean + ((3 : ℚ) : ℝ) * stderr) :=
  findMostConfident_outlier_fallback lowTrio (99/100) 3 (by norm_num)
    (by simp [lowTrio])
    (by
      intro p hp
      simp only [lowTrio, List.mem_cons, List.not_mem_nil, or_false] at hp
      rcases hp with rfl | rfl | rfl <;> norm_num)

end NluEngine
